import Mathlib

/-
Verification of the spotify_meta harvesting/download pipeline.

Shallow embedding of the three modules:
  * spotify_utils.py : error classification (safe_spotify_call), artist
    metadata lookup (get_artist_metadata), Odesli link resolution
    (get_odesli_links), progress checkpointing (save_progress /
    load_progress), and the paginated harvest loop (get_playlist_tracks).
  * youtube_utils.py : URL validation (validate_youtube_url), search-query
    construction (build_search_query), the per-track download state
    machine (download_song), and metadata loading (load_metadata).
  * main.py : fetch_spotify_metadata, download_mp3s and the main
    orchestration, modelled as pure functions over explicit environments.

External effects (network call outcomes, file contents, interactive
answers) are inputs; file writes and checkpoint saves are returned
explicitly.  Wall-clock timestamps (time.time() in save_progress) are not
modelled; no claim mentions them.
-/

set_option maxRecDepth 4096

/-! ## spotify_utils.py : errors and call classification -/

/-- SpotifyException as observed by safe_spotify_call: its http_status and
whether the lowercased message contains the substring held in the variable
for quota wording. -/
structure SpotifyExc where
  http_status : Nat
  msgHasQuotaExceeded : Bool
deriving DecidableEq

/-- Outcome classes a Python call site can raise: a SpotifyException or any
other exception. -/
inductive PyError where
  | spotifyExc (e : SpotifyExc)
  | otherExc
deriving DecidableEq

/-- The two custom exception classes SpotifyQuotaExceeded and
SpotifyConnectionError from spotify_utils.py. -/
inductive SpotifyError where
  | quotaExceeded
  | connectionError
deriving DecidableEq

/-- Classification performed by safe_spotify_call (spotify_utils.py lines
60-79): status 429 or a quota message raise SpotifyQuotaExceeded; status
401, every other SpotifyException, and every non-Spotify exception raise
SpotifyConnectionError. -/
def classify (e : PyError) : SpotifyError :=
  match e with
  | .spotifyExc s =>
    if s.http_status == 429 then .quotaExceeded
    else if s.msgHasQuotaExceeded then .quotaExceeded
    else if s.http_status == 401 then .connectionError
    else .connectionError
  | .otherExc => .connectionError

/-- safe_spotify_call: returns the wrapped call's value, or raises the
classified custom exception. -/
def safe_spotify_call {α : Type} (r : Except PyError α) : Except SpotifyError α :=
  match r with
  | .ok a => .ok a
  | .error e => .error (classify e)

/-! ## spotify_utils.py : artist metadata -/

/-- Successful sp.artist response body: the fields read by
get_artist_metadata, each possibly absent (dict.get defaults apply). -/
structure ArtistObj where
  genres : Option (List String)
  popularity : Option Nat
deriving DecidableEq

/-- get_artist_metadata (spotify_utils.py lines 126-137), as a function of
the raw sp.artist call outcome.  An outcome of .ok none models a response
on which the field accesses raise a generic exception (e.g. a null body):
that path is swallowed and yields empty genres and popularity 0.  Quota and
connection classifications are re-raised. -/
def get_artist_metadata (call : Except PyError (Option ArtistObj)) :
    Except SpotifyError (List String × Nat) :=
  match safe_spotify_call call with
  | .error e => .error e
  | .ok none => .ok ([], 0)
  | .ok (some a) => .ok (a.genres.getD [], a.popularity.getD 0)

/-! ## spotify_utils.py : Odesli links -/

/-- Odesli HTTP outcome observed by get_odesli_links. -/
inductive OdesliResp where
  | respOk (youtube_url : Option String) (apple_music_url : Option String)
  | httpError
  | timeout
  | otherFailure
deriving DecidableEq

/-- get_odesli_links (spotify_utils.py lines 139-171): every failure mode
degrades to a pair of null links; nothing is raised. -/
def get_odesli_links (r : OdesliResp) : Option String × Option String :=
  match r with
  | .respOk y a => (y, a)
  | .httpError => (none, none)
  | .timeout => (none, none)
  | .otherFailure => (none, none)

/-! ## spotify_utils.py : data model of the harvest -/

/-- One artist entry of a playlist track item, together with the outcome
the environment assigns to the sp.artist lookup for this occurrence. -/
structure ArtistEntry where
  name : String
  artistId : String
  callResult : Except PyError (Option ArtistObj)

/-- Artist record appended to the track: always role "primary". -/
structure ArtistRec where
  name : String
  role : String
deriving DecidableEq

/-- Album record built for a track. -/
structure Album where
  title : String
  main_artist_name : String
deriving DecidableEq

/-- A non-null track object of a playlist page, with the Odesli outcome the
environment assigns to its link lookup. -/
structure TrackObj where
  name : String
  duration_ms : Nat
  url : String
  trackId : String
  popularity : Nat
  artists : List ArtistEntry
  album_name : String
  odesli : OdesliResp

/-- The dictionary appended to the harvested track list
(spotify_utils.py lines 239-251). -/
structure TrackData where
  spotify_id : String
  spotify_url : String
  youtube_url : Option String
  apple_music_url : Option String
  song_title : String
  duration : Nat
  track_popularity : Nat
  artist_popularity : Nat
  artists : List ArtistRec
  album : Album
  genres : List String
deriving DecidableEq

/-- Python set.update on the running genre set, modelled as an
insertion-ordered deduplicating list union. -/
def updateSet (s : List String) (new : List String) : List String :=
  new.foldl (fun acc g => if g ∈ acc then acc else acc ++ [g]) s

/-! ## spotify_utils.py : progress store -/

/-- Checkpoint artifact content: save_progress writes tracks, the cursor,
a timestamp (not modelled) and the total track count. -/
structure Checkpoint where
  tracks : List TrackData
  current_index : Nat
  total_tracks : Nat
deriving DecidableEq

/-- save_progress (spotify_utils.py lines 81-94): the checkpoint written
for a given track list and cursor. -/
def save_progress (tracks : List TrackData) (current_index : Nat) : Checkpoint :=
  { tracks := tracks, current_index := current_index, total_tracks := tracks.length }

/-- load_progress (spotify_utils.py lines 96-111): absent or unreadable
checkpoint yields an empty list and cursor 0. -/
def load_progress (file : Option Checkpoint) : List TrackData × Nat :=
  match file with
  | none => ([], 0)
  | some cp => (cp.tracks, cp.current_index)

/-! ## spotify_utils.py : playlist URL handling -/

def playlistUrlStart : String := "https://open.spotify.com/playlist/"

/-- Python str.strip, modelled over the character list (kernel-reducible,
unlike String.trim). -/
def pyStrip (s : String) : String :=
  ⟨((s.toList.dropWhile Char.isWhitespace).reverse.dropWhile Char.isWhitespace).reverse⟩

/-- Python str.startswith, modelled over character lists. -/
def strStartsWith (s pre : String) : Bool :=
  pre.toList.isPrefixOf s.toList

/-- extract_playlist_id (spotify_utils.py line 123-124): final path
segment, query string stripped. -/
def extract_playlist_id (playlist_url : String) : String :=
  (((playlist_url.splitOn ("/")).getLastD ("")).splitOn ("?")).headD ("")

/-! ## spotify_utils.py : the harvest loop -/

/-- State carried through the while/for loops of get_playlist_tracks,
extended with the log of checkpoints written so far. -/
structure LoopSt where
  tracks : List TrackData
  count : Nat
  saves : List Checkpoint

/-- Inner for-loop over a track's artists (spotify_utils.py lines
219-229): appends an artist record, looks up metadata, unions genres, and
records the first artist's popularity; a quota/connection classification
aborts. -/
def artistLoop : List ArtistEntry → Nat → List ArtistRec → List String → Nat →
    Except SpotifyError (List ArtistRec × List String × Nat)
  | [], _, arts, gens, pop => .ok (arts, gens, pop)
  | a :: rest, i, arts, gens, pop =>
    let arts' := arts ++ [⟨a.name, "primary"⟩]
    match get_artist_metadata a.callResult with
    | .error e => .error e
    | .ok (g, p) =>
      artistLoop rest (i + 1) arts' (updateSet gens g) (if i == 0 then p else pop)

/-- Track record assembled at spotify_utils.py lines 239-251. -/
def mkTrackData (t : TrackObj) (arts : List ArtistRec) (gens : List String)
    (apop : Nat) (a0 : ArtistRec) : TrackData :=
  let links := get_odesli_links t.odesli
  { spotify_id := t.trackId
    spotify_url := t.url
    youtube_url := links.1
    apple_music_url := links.2
    song_title := t.name
    duration := t.duration_ms / 1000
    track_popularity := t.popularity
    artist_popularity := apop
    artists := arts
    album := ⟨t.album_name, a0.name⟩
    genres := gens }

/-- Body of the per-item processing (spotify_utils.py lines 204-265) for a
non-null track.  A quota/connection error during the artist loop is saved
by the inner handler (line 228) and again by the outer per-track handler
(line 261), both with cursor track_count - 1, then re-raised.  A generic
per-track error (here: the IndexError from artists[0] when the track has
no artists, line 233) skips the track while keeping the incremented
count.  Every 10 processed tracks a checkpoint is written. -/
def processTrack (st : LoopSt) (t : TrackObj) :
    Except (SpotifyError × List Checkpoint) LoopSt :=
  let count := st.count + 1
  match artistLoop t.artists 0 [] [] 0 with
  | .error e =>
    let cp := save_progress st.tracks (count - 1)
    .error (e, st.saves ++ [cp, cp])
  | .ok (arts, gens, apop) =>
    match arts with
    | [] => .ok ⟨st.tracks, count, st.saves⟩
    | a0 :: _ =>
      let td := mkTrackData t arts gens apop a0
      let tracks' := st.tracks ++ [td]
      let saves' :=
        if count % 10 == 0 then st.saves ++ [save_progress tracks' count]
        else st.saves
      .ok ⟨tracks', count, saves'⟩

/-- For-loop over one page's items (spotify_utils.py lines 199-265): null
track entries are skipped without counting. -/
def processItems : List (Option TrackObj) → LoopSt →
    Except (SpotifyError × List Checkpoint) LoopSt
  | [], st => .ok st
  | none :: rest, st => processItems rest st
  | some t :: rest, st =>
    match processTrack st t with
    | .error es => .error es
    | .ok st' => processItems rest st'

/-- Continuation behaviour of a page: results.get("next") is falsy (loop
break), or the sp.next call succeeds, or it raises. -/
inductive NextSpec where
  | noNext
  | nextOk
  | nextErr (e : PyError)

/-- One page of results: its item list and its continuation behaviour. -/
structure Page where
  items : List (Option TrackObj)
  next : NextSpec

/-- While-loop of get_playlist_tracks (spotify_utils.py lines 198-276):
process the page's items, then advance pagination; a quota/connection
error on the advance saves a checkpoint at the current count and
re-raises. -/
def runPages : List Page → LoopSt → Except (SpotifyError × List Checkpoint) LoopSt
  | [], st => .ok st
  | p :: rest, st =>
    match processItems p.items st with
    | .error es => .error es
    | .ok st' =>
      match p.next with
      | .noNext => .ok st'
      | .nextOk => runPages rest st'
      | .nextErr e => .error (classify e, st'.saves ++ [save_progress st'.tracks st'.count])

/-- Complete environment of one get_playlist_tracks call: the progress
file found on entry (none models absent or unreadable), the interactive
resume answer, the outcome of the initial sp.playlist_items call, and the
pages the environment would serve. -/
structure HarvestInput where
  progress : Option Checkpoint
  resumeAnswer : Bool
  firstCall : Except PyError Unit
  pages : List Page

/-- Observable outcome of get_playlist_tracks: the returned list or raised
error, the ordered log of every checkpoint written, and the final progress
file state. -/
structure HarvestOutcome where
  result : Except SpotifyError (List TrackData)
  saves : List Checkpoint
  file : Option Checkpoint

/-- get_playlist_tracks (spotify_utils.py lines 173-285).  A non-empty
loaded checkpoint offers resumption: accepted, it is returned verbatim;
declined, the progress file is removed first.  A quota/connection error on
the initial playlist listing is caught and yields an empty list.  On
success a final checkpoint is written and then the progress file is
deleted. -/
def get_playlist_tracks (inp : HarvestInput) : HarvestOutcome :=
  let lp := load_progress inp.progress
  if !lp.1.isEmpty && inp.resumeAnswer then
    ⟨.ok lp.1, [], inp.progress⟩
  else
    let f0 : Option Checkpoint := if lp.1.isEmpty then inp.progress else none
    match safe_spotify_call inp.firstCall with
    | .error _ => ⟨.ok [], [], f0⟩
    | .ok _ =>
      match runPages inp.pages ⟨[], 0, []⟩ with
      | .error (e, s) => ⟨.error e, s, s.getLast? <|> f0⟩
      | .ok st =>
        let final := save_progress st.tracks st.count
        ⟨.ok st.tracks, st.saves ++ [final], none⟩

/-! ## Spec-side comparison definitions for claim C2

The contract sentence of the spec describes which harvests fail and what a
successful harvest returns.  These definitions restate that traversal
independently of the checkpointing machinery, for comparison with
get_playlist_tracks. -/

/-- Boolean success test for an Except value. -/
def exceptIsOk {ε α : Type} : Except ε α → Bool
  | .ok _ => true
  | .error _ => false

/-- Spec-side: the first quota/connection classification raised by the
artist lookups of one track, if any. -/
def specArtistsFatal : List ArtistEntry → Option SpotifyError
  | [] => none
  | a :: rest =>
    match a.callResult with
    | .error e => some (classify e)
    | .ok _ => specArtistsFatal rest

/-- Spec-side: the first fatal rejection among a page's items. -/
def specItemsFatal : List (Option TrackObj) → Option SpotifyError
  | [] => none
  | none :: rest => specItemsFatal rest
  | some t :: rest =>
    match specArtistsFatal t.artists with
    | some e => some e
    | none => specItemsFatal rest

/-- Spec-side: the first fatal rejection a harvest traversal encounters,
item lookups first, then the pagination advance. -/
def specPagesFatal : List Page → Option SpotifyError
  | [] => none
  | p :: rest =>
    match specItemsFatal p.items with
    | some e => some e
    | none =>
      match p.next with
      | .noNext => none
      | .nextOk => specPagesFatal rest
      | .nextErr e => some (classify e)

/-- The track record a single successfully processed item yields, none for
an item the harvester skips (a track with no artists). -/
def buildTrack (t : TrackObj) : Option TrackData :=
  match artistLoop t.artists 0 [] [] 0 with
  | .error _ => none
  | .ok (arts, gens, apop) =>
    match arts with
    | [] => none
    | a0 :: _ => some (mkTrackData t arts gens apop a0)

/-- Spec-side: the ordered sequence of successfully processed tracks of a
rejection-free traversal; pagination stops at the first page without a
continuation. -/
def specTracks : List Page → List TrackData
  | [] => []
  | p :: rest =>
    let ts := p.items.filterMap (fun it => it.bind buildTrack)
    match p.next with
    | .noNext => ts
    | .nextOk => ts ++ specTracks rest
    | .nextErr _ => ts

/-! ## youtube_utils.py : download resolution -/

/-- DownloadOutcome method tags from the spec's state machine: the three
return paths of download_song. -/
inductive Method where
  | direct
  | search
  | skipped
deriving DecidableEq

/-- External calls download resolution can make, recorded in order. -/
inductive DlCall where
  | validate (url : String)
  | directDownload (url : String)
  | searchDownload (query : String)
deriving DecidableEq

/-- Outcome of the yt_dlp extract_info probe inside validate_youtube_url:
a truthy or falsy info object, or an exception. -/
inductive ProbeResult where
  | probeOk (infoTruthy : Bool)
  | probeExc (msg : String)
deriving DecidableEq

/-- List-based substring test used to model Python's `in` on strings. -/
def strContains (haystack needle : String) : Bool :=
  (List.range (haystack.toList.length + 1)).any
    (fun i => needle.toList.isPrefixOf (haystack.toList.drop i))

def youtubeDomain1 : String := "youtube.com"
def youtubeDomain2 : String := "youtu.be"

/-- validate_youtube_url (youtube_utils.py lines 44-62). -/
def validate_youtube_url (url : String) (probe : ProbeResult) : Bool × String :=
  if url.toList.isEmpty then (false, "No URL provided")
  else if !(strContains url youtubeDomain1 || strContains url youtubeDomain2) then
    (false, "Invalid YouTube URL format")
  else
    match probe with
    | .probeExc m => (false, ("Video not accessible: " ++ m))
    | .probeOk true => (true, "Valid URL")
    | .probeOk false => (false, "Unknown validation error")

def primaryRole : String := "primary"

/-- build_search_query (youtube_utils.py lines 64-69): title plus the
first artist whose role is "primary", whitespace-trimmed. -/
def build_search_query (t : TrackData) : String :=
  let title := t.song_title
  let prim := ((t.artists.filter (fun a => a.role == primaryRole)).map (fun a => a.name))
  let artist := prim.headD ("")
  pyStrip (title ++ " " ++ artist)

/-- Environment of one download_song call: whether the catalog_id-named
output file exists, and the outcomes of the probe, the direct download and
the search download, should they be attempted. -/
structure DlEnv where
  outputExists : Bool
  probe : ProbeResult
  directOk : Bool
  searchOk : Bool

/-- Result of download_song decorated with the spec's method tag and the
ordered list of external calls performed. -/
structure DlResult where
  success : Bool
  method : Method
  calls : List DlCall
deriving DecidableEq

/-- Search-fallback tail of download_song (youtube_utils.py lines
131-140). -/
def searchFallback (t : TrackData) (env : DlEnv) (pre : List DlCall) : DlResult :=
  let q := build_search_query t
  ⟨env.searchOk, .search, pre ++ [.searchDownload q]⟩

/-- download_song (youtube_utils.py lines 98-140): existing output file
short-circuits; a truthy youtube_url is validated and tried directly;
every failure falls through to the search fallback. -/
def download_song (t : TrackData) (env : DlEnv) : DlResult :=
  if env.outputExists then ⟨true, .skipped, []⟩
  else
    match t.youtube_url with
    | some u =>
      if !u.toList.isEmpty then
        let v := validate_youtube_url u env.probe
        if v.1 then
          if env.directOk then ⟨true, .direct, [.validate u, .directDownload u]⟩
          else searchFallback t env [.validate u, .directDownload u]
        else searchFallback t env [.validate u]
      else searchFallback t env []
    | none => searchFallback t env []

/-! ## main.py : orchestration -/

/-- Network calls of the metadata phase before the playlist URL is
validated; the catalog traversal is only marked as reached. -/
inductive NetCall where
  | connTest
deriving DecidableEq

/-- Failure reasons fetch_spotify_metadata can report (it prints and
returns False). -/
inductive FailReason where
  | connTestFailed
  | fileNotFound
  | invalidInput
  | quota
  | connection
  | noTracks
deriving DecidableEq

/-- Environment of fetch_spotify_metadata: whether the connection test
(sp.current_user, a network call) succeeds, the first line of
spotify_playlist.txt (none models a missing file), and the harvest
environment. -/
structure FetchEnv where
  connOk : Bool
  fileLine : Option String
  harvest : HarvestInput

/-- Observable outcome of fetch_spotify_metadata: success flag, the
failure reason if any, the tracks written to the metadata artifact, the
network calls made before the playlist-URL check, and whether the harvest
(hence any catalog call) was reached. -/
structure FetchResult where
  ok : Bool
  reason : Option FailReason
  tracks : List TrackData
  callsBeforeUrlCheck : List NetCall
  harvestReached : Bool

/-- fetch_spotify_metadata (main.py lines 54-133): connection test first
(one network call even on failure), then the playlist file is read and its
first line checked against the canonical playlist-URL shape (ValueError,
the InvalidInput of the spec, on mismatch), then the harvest runs and its
result is persisted; an empty harvest also fails. -/
def fetch_spotify_metadata (env : FetchEnv) : FetchResult :=
  if !env.connOk then ⟨false, some .connTestFailed, [], [.connTest], false⟩
  else
    match env.fileLine with
    | none => ⟨false, some .fileNotFound, [], [.connTest], false⟩
    | some line =>
      let url := pyStrip line
      if strStartsWith url playlistUrlStart then
        let out := get_playlist_tracks env.harvest
        match out.result with
        | .error .quotaExceeded => ⟨false, some .quota, [], [.connTest], true⟩
        | .error .connectionError => ⟨false, some .connection, [], [.connTest], true⟩
        | .ok ts =>
          if ts.isEmpty then ⟨false, some .noTracks, [], [.connTest], true⟩
          else ⟨true, none, ts, [.connTest], true⟩
      else ⟨false, some .invalidInput, [], [.connTest], false⟩

/-- Result of the download phase: its boolean return, the number of tracks
the loaded metadata reports, and the number of download_song invocations
attempted. -/
structure DlPhaseResult where
  ok : Bool
  reportedTracks : Nat
  attempts : Nat
deriving DecidableEq

/-- download_mp3s (main.py lines 135-215) over load_metadata
(youtube_utils.py lines 35-42): a missing metadata artifact loads as an
empty list and the phase returns False having reported zero tracks and
attempted nothing; otherwise already-existing outputs are skipped and each
remaining track is handed to download_song. -/
def download_mp3s (meta : Option (List TrackData)) (confirm : Bool)
    (denv : Nat → DlEnv) : DlPhaseResult :=
  let tracks := meta.getD []
  if tracks.isEmpty then ⟨false, 0, 0⟩
  else
    let pairs := tracks.enum
    let downloaded := (pairs.filter (fun p => (denv p.1).outputExists)).length
    let remaining := tracks.length - downloaded
    if remaining == 0 then ⟨true, tracks.length, 0⟩
    else if !confirm then ⟨false, tracks.length, 0⟩
    else
      let todo := pairs.filter (fun p => !(denv p.1).outputExists)
      let succ := (todo.filter (fun p => (download_song p.2 (denv p.1)).success)).length
      ⟨decide (0 < succ), tracks.length, todo.length⟩

/-- Environment of one main() run. -/
structure MainEnv where
  requirementsOk : Bool
  fetch : FetchEnv
  metadataAtDownload : Option (List TrackData)
  confirmDownload : Bool
  denv : Nat → DlEnv

/-- Observable outcome of main(): the process exit code and the download
phase result when that phase ran. -/
structure MainResult where
  exitCode : Nat
  downloadPhase : Option DlPhaseResult

/-- main (main.py lines 217-250): failing requirements or a failed
metadata phase exit with code 1; once the download phase runs, the process
exits 0 whether or not that phase succeeded (main.py lines 239-242 only
print). -/
def mainRun (env : MainEnv) : MainResult :=
  if !env.requirementsOk then ⟨1, none⟩
  else
    let f := fetch_spotify_metadata env.fetch
    if !f.ok then ⟨1, none⟩
    else
      let d := download_mp3s env.metadataAtDownload env.confirmDownload env.denv
      ⟨0, some d⟩

/-! ## Spec-side per-artist contribution definitions (claims C2, C3) -/

/-- Spec-side genre accumulation: only artists with a well-formed response
contribute; a swallowed lookup (.ok none) and a fatal one contribute
nothing. -/
def specGenresFrom : List String → List ArtistEntry → List String
  | gens, [] => gens
  | gens, a :: rest =>
    match a.callResult with
    | .ok (some o) => specGenresFrom (updateSet gens (o.genres.getD [])) rest
    | _ => specGenresFrom gens rest

/-- Popularity the first (index 0) artist entry contributes: the response
value when well-formed, 0 when the lookup was swallowed. -/
def specFirstPop : List ArtistEntry → Nat
  | [] => 0
  | a :: _ =>
    match a.callResult with
    | .ok (some o) => o.popularity.getD 0
    | _ => 0

/-! ## Invariant predicates over checkpoint logs (claims C4, C9) -/

/-- Cursor comparison between two checkpoints. -/
def cpLe (a b : Checkpoint) : Prop := a.current_index ≤ b.current_index

/-- A checkpoint log whose cursors never decrease. -/
def SavesMono (l : List Checkpoint) : Prop := l.Pairwise cpLe

/-- Every cursor in the log is bounded by the given count. -/
def SavesBound (l : List Checkpoint) (n : Nat) : Prop :=
  ∀ cp ∈ l, cp.current_index ≤ n

/-- The claimed checkpoint invariant: cursor at most the persisted track
sequence's length. -/
def CpIdxLe (cp : Checkpoint) : Prop := cp.current_index ≤ cp.tracks.length

/-- A harvest environment in which no non-null track entry triggers the
per-track skip (every non-null track has at least one artist). -/
def NoSkips (pages : List Page) : Prop :=
  ∀ p ∈ pages, ∀ it ∈ p.items, ∀ t : TrackObj, it = some t → t.artists ≠ []

/-! ## Concrete inputs used by the scenario claims and witnesses -/

/-- Artist entry whose metadata lookup succeeds with one genre and
popularity 5. -/
def goodArtist : ArtistEntry :=
  ⟨"Ann", "aid", .ok (some ⟨some ["pop"], some 5⟩)⟩

/-- Artist entry whose metadata lookup raises a 429 SpotifyException: the
quota class. -/
def quotaArtist : ArtistEntry :=
  ⟨"Ann", "aid", .error (.spotifyExc ⟨429, false⟩)⟩

/-- Artist entry whose lookup succeeds but whose response is malformed, so
the metadata processing raises a generic, swallowed, exception. -/
def swallowedArtist : ArtistEntry :=
  ⟨"Ann", "aid", .ok none⟩

/-- A track whose processing fully succeeds. -/
def goodTrack : TrackObj :=
  ⟨"Song", 200000, "surl", "sid", 7, [goodArtist], "Alb", .respOk none none⟩

/-- A track whose only artist lookup fails non-fatally (swallowed). -/
def trackSwallowed : TrackObj :=
  ⟨"Song", 200000, "surl", "sid", 7, [swallowedArtist], "Alb", .respOk none none⟩

/-- The 12th track of the C1 scenario: its artist lookup hits the quota. -/
def quotaTrack : TrackObj :=
  ⟨"Song12", 200000, "surl", "sid12", 7, [quotaArtist], "Alb", .respOk none none⟩

/-- A track entry with no artists: building its album record raises the
generic IndexError, so the harvester skips it after counting it. -/
def noArtistTrack : TrackObj :=
  ⟨"Song", 200000, "surl", "sid", 7, [], "Alb", .respOk none none⟩

/-- C1 scenario: a fresh 25-track single-page harvest whose 12th track
raises the quota during artist lookup. -/
def inpC1 : HarvestInput :=
  ⟨none, false, .ok (),
   [⟨(List.replicate 11 (some goodTrack)) ++ [some quotaTrack] ++
     List.replicate 13 (some goodTrack), .noNext⟩]⟩

/-- C4 counterexample: a 10-item page whose first item is skipped by a
per-track error, so the 10-track periodic checkpoint (and the final one)
carries cursor 10 over only 9 persisted tracks. -/
def inpC4 : HarvestInput :=
  ⟨none, false, .ok (),
   [⟨(some noArtistTrack) :: List.replicate 9 (some goodTrack), .noNext⟩]⟩

/-- C2 counterexample: the very first playlist-listing call raises a 429
SpotifyException. -/
def inpC2 : HarvestInput :=
  ⟨none, false, .error (.spotifyExc ⟨429, false⟩), []⟩

/-- A harvest input for witnesses: fresh single-page run over one good
track. -/
def inpOnePage : HarvestInput :=
  ⟨none, false, .ok (), [⟨[some goodTrack], .noNext⟩]⟩

/-- A stale checkpoint as left behind by an aborted earlier run. -/
def cpOld : Checkpoint :=
  ⟨[⟨"old", "u", none, none, "Old", 1, 0, 0, [⟨"Ann", "primary"⟩],
    ⟨"Alb", "Ann"⟩, []⟩], 3, 1⟩

/-- A harvest input holding a declined checkpoint. -/
def inpDecline : HarvestInput :=
  ⟨some cpOld, false, .ok (), [⟨[some goodTrack], .noNext⟩]⟩

/-- The C6 scenario track: no resolved link, title Foo, one primary artist
Bar. -/
def fooTrack : TrackData :=
  ⟨"abc", "surl", none, none, "Foo", 100, 0, 0, [⟨"Bar", "primary"⟩],
   ⟨"Alb", "Bar"⟩, []⟩

/-- Download environment whose search succeeds and whose output file does
not exist. -/
def dlEnvSearchOk : DlEnv := ⟨false, .probeOk true, true, true⟩

/-- Download environment whose output file already exists. -/
def dlEnvExists : DlEnv := ⟨true, .probeOk true, true, true⟩

/-- C8 counterexample environment: connection test succeeds, playlist file
holds a malformed URL. -/
def fetchC8 : FetchEnv :=
  ⟨true, some ("https://example.com/nope"), ⟨none, false, .ok (), []⟩⟩

/-- A fetch environment that succeeds end to end. -/
def fetchOkEnv : FetchEnv :=
  ⟨true, some ("https://open.spotify.com/playlist/abc?si=1"), inpOnePage⟩

/-- C7 environment: the metadata phase succeeds but the metadata artifact
is missing when the download phase reads it. -/
def envC7 : MainEnv :=
  ⟨true, fetchOkEnv, none, true, fun _ => dlEnvSearchOk⟩

/-! ## Lemmas: artist loop -/

/-- The artist loop raises exactly the first quota/connection
classification among its entries. -/
theorem artistLoop_error_iff (entries : List ArtistEntry) :
    ∀ (i : Nat) (arts : List ArtistRec) (gens : List String) (pop : Nat)
      (e : SpotifyError),
    artistLoop entries i arts gens pop = .error e ↔
      specArtistsFatal entries = some e := by
  induction entries with
  | nil =>
    intro i arts gens pop e
    simp [artistLoop, specArtistsFatal]
  | cons a rest ih =>
    intro i arts gens pop e
    cases hc : a.callResult with
    | ok x =>
      cases x with
      | none =>
        simp [artistLoop, specArtistsFatal, get_artist_metadata,
          safe_spotify_call, hc, ih]
      | some o =>
        simp [artistLoop, specArtistsFatal, get_artist_metadata,
          safe_spotify_call, hc, ih]
    | error pe =>
      simp [artistLoop, specArtistsFatal, get_artist_metadata,
        safe_spotify_call, hc]

/-- The artist records an OK artist loop returns are exactly the entries'
names, each with role "primary", appended to the accumulator. -/
theorem artistLoop_ok_arts (entries : List ArtistEntry) :
    ∀ (i : Nat) (arts : List ArtistRec) (gens : List String) (pop : Nat)
      (v : List ArtistRec × List String × Nat),
    artistLoop entries i arts gens pop = .ok v →
      v.1 = arts ++ entries.map (fun a => ⟨a.name, "primary"⟩) := by
  induction entries with
  | nil =>
    intro i arts gens pop v h
    simp [artistLoop] at h
    simp [← h]
  | cons a rest ih =>
    intro i arts gens pop v h
    cases hc : a.callResult with
    | ok x =>
      cases x with
      | none =>
        simp [artistLoop, get_artist_metadata, safe_spotify_call, hc] at h
        have := ih _ _ _ _ _ h
        simpa using this
      | some o =>
        simp [artistLoop, get_artist_metadata, safe_spotify_call, hc] at h
        have := ih _ _ _ _ _ h
        simpa using this
    | error pe =>
      simp [artistLoop, get_artist_metadata, safe_spotify_call, hc] at h

/-- The genre set an OK artist loop returns is the accumulated union of
the well-formed responses' genres only. -/
theorem artistLoop_ok_gens (entries : List ArtistEntry) :
    ∀ (i : Nat) (arts : List ArtistRec) (gens : List String) (pop : Nat)
      (v : List ArtistRec × List String × Nat),
    artistLoop entries i arts gens pop = .ok v →
      v.2.1 = specGenresFrom gens entries := by
  induction entries with
  | nil =>
    intro i arts gens pop v h
    simp [artistLoop] at h
    simp [specGenresFrom, ← h]
  | cons a rest ih =>
    intro i arts gens pop v h
    cases hc : a.callResult with
    | ok x =>
      cases x with
      | none =>
        simp [artistLoop, get_artist_metadata, safe_spotify_call, hc] at h
        have := ih _ _ _ _ _ h
        simpa [specGenresFrom, hc, updateSet] using this
      | some o =>
        simp [artistLoop, get_artist_metadata, safe_spotify_call, hc] at h
        have := ih _ _ _ _ _ h
        simpa [specGenresFrom, hc] using this
    | error pe =>
      simp [artistLoop, get_artist_metadata, safe_spotify_call, hc] at h

/-- Once past index 0, the artist loop never rewrites the popularity
accumulator. -/
theorem artistLoop_pop_const (entries : List ArtistEntry) :
    ∀ (i : Nat) (arts : List ArtistRec) (gens : List String) (pop : Nat)
      (v : List ArtistRec × List String × Nat),
    artistLoop entries (i + 1) arts gens pop = .ok v → v.2.2 = pop := by
  induction entries with
  | nil =>
    intro i arts gens pop v h
    simp [artistLoop] at h
    simp [← h]
  | cons a rest ih =>
    intro i arts gens pop v h
    cases hc : a.callResult with
    | ok x =>
      cases x with
      | none =>
        simp [artistLoop, get_artist_metadata, safe_spotify_call, hc] at h
        exact ih _ _ _ _ _ h
      | some o =>
        simp [artistLoop, get_artist_metadata, safe_spotify_call, hc] at h
        exact ih _ _ _ _ _ h
    | error pe =>
      simp [artistLoop, get_artist_metadata, safe_spotify_call, hc] at h

/-- The popularity an OK artist loop started at index 0 returns is the
first entry's contribution. -/
theorem artistLoop_ok_pop (entries : List ArtistEntry)
    (v : List ArtistRec × List String × Nat)
    (h : artistLoop entries 0 [] [] 0 = .ok v) :
    v.2.2 = specFirstPop entries := by
  cases entries with
  | nil =>
    simp [artistLoop] at h
    simp [specFirstPop, ← h]
  | cons a rest =>
    cases hc : a.callResult with
    | ok x =>
      cases x with
      | none =>
        simp [artistLoop, get_artist_metadata, safe_spotify_call, hc] at h
        have := artistLoop_pop_const rest 0 _ _ _ _ h
        simpa [specFirstPop, hc] using this
      | some o =>
        simp [artistLoop, get_artist_metadata, safe_spotify_call, hc] at h
        have := artistLoop_pop_const rest 0 _ _ _ _ h
        simpa [specFirstPop, hc] using this
    | error pe =>
      simp [artistLoop, get_artist_metadata, safe_spotify_call, hc] at h

/-- Entries whose lookups all return (fatally or not) without a
quota/connection classification have no fatal entry. -/
theorem specArtistsFatal_none (entries : List ArtistEntry)
    (h : ∀ a ∈ entries, exceptIsOk a.callResult = true) :
    specArtistsFatal entries = none := by
  induction entries with
  | nil => simp [specArtistsFatal]
  | cons a rest ih =>
    have ha := h a (by simp)
    cases hc : a.callResult with
    | ok x =>
      simp [specArtistsFatal, hc]
      exact ih (fun b hb => h b (by simp [hb]))
    | error pe =>
      rw [hc] at ha
      simp [exceptIsOk] at ha

/-! ## Lemmas: per-track processing -/

/-- A fatal artist lookup makes processTrack save the gathered tracks
twice (inner handler, then the outer per-track handler), both with cursor
track_count - 1, and re-raise. -/
theorem processTrack_fatal (st : LoopSt) (t : TrackObj) (e : SpotifyError)
    (h : specArtistsFatal t.artists = some e) :
    processTrack st t =
      .error (e, st.saves ++ [save_progress st.tracks st.count,
                             save_progress st.tracks st.count]) := by
  have hl : artistLoop t.artists 0 [] [] 0 = .error e :=
    (artistLoop_error_iff t.artists 0 [] [] 0 e).mpr h
  simp [processTrack, hl]

/-- A track with no fatal artist lookup is processed without aborting: the
count advances by one and the track list is extended by its build result
(nothing for a skipped track). -/
theorem processTrack_ok (st : LoopSt) (t : TrackObj)
    (h : specArtistsFatal t.artists = none) :
    ∃ s, processTrack st t =
      .ok ⟨st.tracks ++ (buildTrack t).toList, st.count + 1, s⟩ := by
  cases hl : artistLoop t.artists 0 [] [] 0 with
  | error e =>
    have := (artistLoop_error_iff t.artists 0 [] [] 0 e).mp hl
    rw [this] at h
    cases h
  | ok v =>
    obtain ⟨arts, gens, apop⟩ := v
    cases arts with
    | nil =>
      refine ⟨st.saves, ?_⟩
      simp [processTrack, hl, buildTrack]
    | cons a0 tl =>
      refine ⟨if (st.count + 1) % 10 == 0
        then st.saves ++ [save_progress
          (st.tracks ++ [mkTrackData t (a0 :: tl) gens apop a0]) (st.count + 1)]
        else st.saves, ?_⟩
      simp [processTrack, hl, buildTrack]

/-! ## Lemmas: page item loop and pagination -/

/-- A fatal rejection among a page's items aborts the item loop with that
classification. -/
theorem processItems_fatal (items : List (Option TrackObj)) (e : SpotifyError)
    (h : specItemsFatal items = some e) :
    ∀ st, ∃ s, processItems items st = .error (e, s) := by
  induction items with
  | nil => simp [specItemsFatal] at h
  | cons it rest ih =>
    intro st
    cases it with
    | none =>
      simp [specItemsFatal] at h
      obtain ⟨s, hs⟩ := ih h st
      exact ⟨s, by simp [processItems, hs]⟩
    | some t =>
      cases hf : specArtistsFatal t.artists with
      | none =>
        simp [specItemsFatal, hf] at h
        obtain ⟨s0, hs0⟩ := processTrack_ok st t hf
        obtain ⟨s, hs⟩ := ih h ⟨st.tracks ++ (buildTrack t).toList, st.count + 1, s0⟩
        exact ⟨s, by simp [processItems, hs0, hs]⟩
      | some e' =>
        simp [specItemsFatal, hf] at h
        subst h
        exact ⟨st.saves ++ [save_progress st.tracks st.count,
                            save_progress st.tracks st.count],
          by simp [processItems, processTrack_fatal st t e' hf]⟩

/-- A rejection-free item loop extends the track list with exactly the
build results of its non-null items, in order. -/
theorem processItems_ok (items : List (Option TrackObj))
    (h : specItemsFatal items = none) :
    ∀ st, ∃ c s, processItems items st =
      .ok ⟨st.tracks ++ items.filterMap (fun it => it.bind buildTrack), c, s⟩ := by
  induction items with
  | nil =>
    intro st
    exact ⟨st.count, st.saves, by simp [processItems]⟩
  | cons it rest ih =>
    intro st
    cases it with
    | none =>
      simp [specItemsFatal] at h
      obtain ⟨c, s, hs⟩ := ih h st
      exact ⟨c, s, by simp [processItems, hs]⟩
    | some t =>
      cases hf : specArtistsFatal t.artists with
      | none =>
        simp [specItemsFatal, hf] at h
        obtain ⟨s0, hs0⟩ := processTrack_ok st t hf
        obtain ⟨c, s, hs⟩ := ih h ⟨st.tracks ++ (buildTrack t).toList, st.count + 1, s0⟩
        refine ⟨c, s, ?_⟩
        simp only [processItems, hs0]
        rw [hs]
        cases hb : buildTrack t <;> simp [hb]
      | some e' =>
        simp [specItemsFatal, hf] at h

/-- A traversal whose environment holds a fatal rejection aborts with that
classification. -/
theorem runPages_fatal (pages : List Page) (e : SpotifyError)
    (h : specPagesFatal pages = some e) :
    ∀ st, ∃ s, runPages pages st = .error (e, s) := by
  induction pages with
  | nil => simp [specPagesFatal] at h
  | cons p rest ih =>
    intro st
    cases hi : specItemsFatal p.items with
    | some e' =>
      simp [specPagesFatal, hi] at h
      subst h
      obtain ⟨s, hs⟩ := processItems_fatal p.items e' hi st
      exact ⟨s, by simp [runPages, hs]⟩
    | none =>
      obtain ⟨c, s0, hs0⟩ := processItems_ok p.items hi st
      cases hn : p.next with
      | noNext => simp [specPagesFatal, hi, hn] at h
      | nextOk =>
        simp [specPagesFatal, hi, hn] at h
        obtain ⟨s, hs⟩ := ih h ⟨st.tracks ++ p.items.filterMap
          (fun it => it.bind buildTrack), c, s0⟩
        exact ⟨s, by simp [runPages, hs0, hn, hs]⟩
      | nextErr pe =>
        simp [specPagesFatal, hi, hn] at h
        subst h
        exact ⟨s0 ++ [save_progress (st.tracks ++ p.items.filterMap
          (fun it => it.bind buildTrack)) c],
          by simp [runPages, hs0, hn]⟩

/-- A rejection-free traversal returns the spec-side track sequence. -/
theorem runPages_ok (pages : List Page)
    (h : specPagesFatal pages = none) :
    ∀ st, ∃ c s, runPages pages st =
      .ok ⟨st.tracks ++ specTracks pages, c, s⟩ := by
  induction pages with
  | nil =>
    intro st
    exact ⟨st.count, st.saves, by simp [runPages, specTracks]⟩
  | cons p rest ih =>
    intro st
    cases hi : specItemsFatal p.items with
    | some e' => simp [specPagesFatal, hi] at h
    | none =>
      obtain ⟨c0, s0, hs0⟩ := processItems_ok p.items hi st
      cases hn : p.next with
      | noNext =>
        exact ⟨c0, s0, by simp [runPages, hs0, hn, specTracks]⟩
      | nextOk =>
        simp [specPagesFatal, hi, hn] at h
        obtain ⟨c, s, hs⟩ := ih h ⟨st.tracks ++ p.items.filterMap
          (fun it => it.bind buildTrack), c0, s0⟩
        refine ⟨c, s, ?_⟩
        simp only [runPages, hs0, hn, hs]
        simp [specTracks, hn]
      | nextErr pe =>
        simp [specPagesFatal, hi, hn] at h

/-! ## Lemmas: checkpoint-log invariants -/

/-- Appending checkpoints whose cursors dominate the bound preserves
monotonicity of the log. -/
theorem savesMono_append (l cps : List Checkpoint) (n : Nat)
    (hm : SavesMono l) (hb : SavesBound l n)
    (hcps : cps.Pairwise cpLe) (hge : ∀ cp ∈ cps, n ≤ cp.current_index) :
    SavesMono (l ++ cps) := by
  rw [SavesMono, List.pairwise_append]
  exact ⟨hm, hcps, fun a ha b hbm => le_trans (hb a ha) (hge b hbm)⟩

/-- A cursor bound is preserved by raising the bound. -/
theorem savesBound_mono (l : List Checkpoint) (n m : Nat)
    (hb : SavesBound l n) (h : n ≤ m) : SavesBound l m :=
  fun cp hcp => le_trans (hb cp hcp) h

/-- Per-track processing preserves checkpoint monotonicity and the cursor
bound, and never decreases the count. -/
theorem processTrack_mono (st : LoopSt) (t : TrackObj)
    (hm : SavesMono st.saves) (hb : SavesBound st.saves st.count) :
    (∀ st', processTrack st t = .ok st' →
      SavesMono st'.saves ∧ SavesBound st'.saves st'.count ∧ st.count ≤ st'.count) ∧
    (∀ e s, processTrack st t = .error (e, s) → SavesMono s) := by
  cases hl : artistLoop t.artists 0 [] [] 0 with
  | error e0 =>
    constructor
    · intro st' h
      simp [processTrack, hl] at h
    · intro e s h
      simp [processTrack, hl] at h
      rw [← h.2]
      refine savesMono_append _ _ st.count hm hb ?_ ?_
      · simp [cpLe, save_progress]
      · simp [save_progress]
  | ok v =>
    obtain ⟨arts, gens, apop⟩ := v
    cases arts with
    | nil =>
      constructor
      · intro st' h
        simp [processTrack, hl] at h
        rw [← h]
        exact ⟨hm, savesBound_mono _ _ _ hb (Nat.le_succ _), Nat.le_succ _⟩
      · intro e s h
        simp [processTrack, hl] at h
    | cons a0 tl =>
      constructor
      · intro st' h
        simp only [processTrack, hl] at h
        rw [Except.ok.injEq] at h
        rw [← h]
        by_cases hdiv : (st.count + 1) % 10 == 0
        · simp only [hdiv, if_pos]
          refine ⟨savesMono_append _ _ st.count hm hb ?_ ?_, ?_, Nat.le_succ _⟩
          · simp [cpLe]
          · simp [save_progress, Nat.le_succ]
          · intro cp hcp
            simp at hcp
            rcases hcp with hcp | hcp
            · exact savesBound_mono _ _ _ hb (Nat.le_succ _) cp hcp
            · simp [hcp, save_progress]
        · simp only [hdiv]
          simp only [Bool.false_eq_true, if_neg, if_false]
          exact ⟨hm, savesBound_mono _ _ _ hb (Nat.le_succ _), Nat.le_succ _⟩
      · intro e s h
        simp [processTrack, hl] at h

/-- The item loop preserves checkpoint monotonicity and the cursor bound,
and never decreases the count. -/
theorem processItems_mono (items : List (Option TrackObj)) :
    ∀ st, SavesMono st.saves → SavesBound st.saves st.count →
    (∀ st', processItems items st = .ok st' →
      SavesMono st'.saves ∧ SavesBound st'.saves st'.count ∧ st.count ≤ st'.count) ∧
    (∀ e s, processItems items st = .error (e, s) → SavesMono s) := by
  induction items with
  | nil =>
    intro st hm hb
    constructor
    · intro st' h
      simp [processItems] at h
      rw [← h]
      exact ⟨hm, hb, le_refl _⟩
    · intro e s h
      simp [processItems] at h
  | cons it rest ih =>
    intro st hm hb
    cases it with
    | none =>
      constructor
      · intro st' h
        simp only [processItems] at h
        exact (ih st hm hb).1 st' h
      · intro e s h
        simp only [processItems] at h
        exact (ih st hm hb).2 e s h
    | some t =>
      constructor
      · intro st' h
        simp only [processItems] at h
        cases hp : processTrack st t with
        | error es => rw [hp] at h; cases h
        | ok st1 =>
          rw [hp] at h
          obtain ⟨h1, h2, h3⟩ := (processTrack_mono st t hm hb).1 st1 hp
          obtain ⟨g1, g2, g3⟩ := (ih st1 h1 h2).1 st' h
          exact ⟨g1, g2, le_trans h3 g3⟩
      · intro e s h
        simp only [processItems] at h
        cases hp : processTrack st t with
        | error es =>
          rw [hp] at h
          injection h with h2
          rw [h2] at hp
          exact (processTrack_mono st t hm hb).2 e s hp
        | ok st1 =>
          rw [hp] at h
          obtain ⟨h1, h2, _⟩ := (processTrack_mono st t hm hb).1 st1 hp
          exact (ih st1 h1 h2).2 e s h

/-- The pagination loop preserves checkpoint monotonicity and the cursor
bound, and never decreases the count. -/
theorem runPages_mono (pages : List Page) :
    ∀ st, SavesMono st.saves → SavesBound st.saves st.count →
    (∀ st', runPages pages st = .ok st' →
      SavesMono st'.saves ∧ SavesBound st'.saves st'.count ∧ st.count ≤ st'.count) ∧
    (∀ e s, runPages pages st = .error (e, s) → SavesMono s) := by
  induction pages with
  | nil =>
    intro st hm hb
    constructor
    · intro st' h
      simp [runPages] at h
      rw [← h]
      exact ⟨hm, hb, le_refl _⟩
    · intro e s h
      simp [runPages] at h
  | cons p rest ih =>
    intro st hm hb
    constructor
    · intro st' h
      simp only [runPages] at h
      cases hp : processItems p.items st with
      | error es => rw [hp] at h; cases h
      | ok st1 =>
        rw [hp] at h
        obtain ⟨h1, h2, h3⟩ := (processItems_mono p.items st hm hb).1 st1 hp
        cases hn : p.next with
        | noNext =>
          rw [hn] at h
          cases h
          exact ⟨h1, h2, h3⟩
        | nextOk =>
          rw [hn] at h
          obtain ⟨g1, g2, g3⟩ := (ih st1 h1 h2).1 st' h
          exact ⟨g1, g2, le_trans h3 g3⟩
        | nextErr pe =>
          rw [hn] at h
          cases h
    · intro e s h
      simp only [runPages] at h
      cases hp : processItems p.items st with
      | error es =>
        rw [hp] at h
        injection h with h2
        rw [h2] at hp
        exact (processItems_mono p.items st hm hb).2 e s hp
      | ok st1 =>
        rw [hp] at h
        obtain ⟨h1, h2, _⟩ := (processItems_mono p.items st hm hb).1 st1 hp
        cases hn : p.next with
        | noNext => rw [hn] at h; cases h
        | nextOk =>
          rw [hn] at h
          exact (ih st1 h1 h2).2 e s h
        | nextErr pe =>
          rw [hn] at h
          cases h
          refine savesMono_append _ _ st1.count h1 h2 ?_ ?_
          · simp [cpLe]
          · simp [save_progress]

/-- Per-track processing of a track with at least one artist keeps the
count equal to the persisted length and every written checkpoint within
the claimed cursor invariant. -/
theorem processTrack_len (st : LoopSt) (t : TrackObj)
    (hne : t.artists ≠ [])
    (hcl : st.count = st.tracks.length)
    (hcp : ∀ cp ∈ st.saves, CpIdxLe cp) :
    (∀ st', processTrack st t = .ok st' →
      st'.count = st'.tracks.length ∧ ∀ cp ∈ st'.saves, CpIdxLe cp) ∧
    (∀ e s, processTrack st t = .error (e, s) → ∀ cp ∈ s, CpIdxLe cp) := by
  cases hl : artistLoop t.artists 0 [] [] 0 with
  | error e0 =>
    constructor
    · intro st' h
      simp [processTrack, hl] at h
    · intro e s h
      simp [processTrack, hl] at h
      rw [← h.2]
      intro cp hm
      simp at hm
      rcases hm with hm | hm
      · exact hcp cp hm
      · simp [hm, CpIdxLe, save_progress, hcl]
  | ok v =>
    obtain ⟨arts, gens, apop⟩ := v
    cases arts with
    | nil =>
      have harts := artistLoop_ok_arts t.artists 0 [] [] 0 _ hl
      simp at harts
      exact absurd harts hne
    | cons a0 tl =>
      constructor
      · intro st' h
        simp only [processTrack, hl] at h
        rw [Except.ok.injEq] at h
        rw [← h]
        constructor
        · simp [hcl]
        · by_cases hdiv : (st.count + 1) % 10 == 0
          · simp only [hdiv, if_pos]
            intro cp hm
            simp at hm
            rcases hm with hm | hm
            · exact hcp cp hm
            · simp [hm, CpIdxLe, save_progress, hcl]
          · simp only [hdiv, Bool.false_eq_true, if_neg, if_false]
            exact hcp
      · intro e s h
        simp [processTrack, hl] at h

/-- The item loop over skip-free items keeps the count equal to the
persisted length and every written checkpoint within the invariant. -/
theorem processItems_len (items : List (Option TrackObj))
    (hne : ∀ it ∈ items, ∀ t : TrackObj, it = some t → t.artists ≠ []) :
    ∀ st, st.count = st.tracks.length → (∀ cp ∈ st.saves, CpIdxLe cp) →
    (∀ st', processItems items st = .ok st' →
      st'.count = st'.tracks.length ∧ ∀ cp ∈ st'.saves, CpIdxLe cp) ∧
    (∀ e s, processItems items st = .error (e, s) → ∀ cp ∈ s, CpIdxLe cp) := by
  induction items with
  | nil =>
    intro st hcl hcp
    constructor
    · intro st' h
      simp [processItems] at h
      rw [← h]
      exact ⟨hcl, hcp⟩
    · intro e s h
      simp [processItems] at h
  | cons it rest ih =>
    intro st hcl hcp
    have hrest : ∀ it ∈ rest, ∀ t : TrackObj, it = some t → t.artists ≠ [] :=
      fun x hx => hne x (by simp [hx])
    cases it with
    | none =>
      constructor
      · intro st' h
        simp only [processItems] at h
        exact (ih hrest st hcl hcp).1 st' h
      · intro e s h
        simp only [processItems] at h
        exact (ih hrest st hcl hcp).2 e s h
    | some t =>
      have hat : t.artists ≠ [] := hne (some t) (by simp) t rfl
      constructor
      · intro st' h
        simp only [processItems] at h
        cases hp : processTrack st t with
        | error es => rw [hp] at h; cases h
        | ok st1 =>
          rw [hp] at h
          obtain ⟨h1, h2⟩ := (processTrack_len st t hat hcl hcp).1 st1 hp
          exact (ih hrest st1 h1 h2).1 st' h
      · intro e s h
        simp only [processItems] at h
        cases hp : processTrack st t with
        | error es =>
          rw [hp] at h
          injection h with h2
          rw [h2] at hp
          exact (processTrack_len st t hat hcl hcp).2 e s hp
        | ok st1 =>
          rw [hp] at h
          obtain ⟨h1, h2⟩ := (processTrack_len st t hat hcl hcp).1 st1 hp
          exact (ih hrest st1 h1 h2).2 e s h

/-- The pagination loop over skip-free pages keeps the count equal to the
persisted length and every written checkpoint within the invariant. -/
theorem runPages_len (pages : List Page) (hns : NoSkips pages) :
    ∀ st, st.count = st.tracks.length → (∀ cp ∈ st.saves, CpIdxLe cp) →
    (∀ st', runPages pages st = .ok st' →
      st'.count = st'.tracks.length ∧ ∀ cp ∈ st'.saves, CpIdxLe cp) ∧
    (∀ e s, runPages pages st = .error (e, s) → ∀ cp ∈ s, CpIdxLe cp) := by
  induction pages with
  | nil =>
    intro st hcl hcp
    constructor
    · intro st' h
      simp [runPages] at h
      rw [← h]
      exact ⟨hcl, hcp⟩
    · intro e s h
      simp [runPages] at h
  | cons p rest ih =>
    intro st hcl hcp
    have hpi : ∀ it ∈ p.items, ∀ t : TrackObj, it = some t → t.artists ≠ [] :=
      fun it hit => hns p (by simp) it hit
    have hrest : NoSkips rest := fun q hq => hns q (by simp [hq])
    constructor
    · intro st' h
      simp only [runPages] at h
      cases hp : processItems p.items st with
      | error es => rw [hp] at h; cases h
      | ok st1 =>
        rw [hp] at h
        obtain ⟨h1, h2⟩ := (processItems_len p.items hpi st hcl hcp).1 st1 hp
        cases hn : p.next with
        | noNext =>
          rw [hn] at h
          cases h
          exact ⟨h1, h2⟩
        | nextOk =>
          rw [hn] at h
          exact (ih hrest st1 h1 h2).1 st' h
        | nextErr pe =>
          rw [hn] at h
          cases h
    · intro e s h
      simp only [runPages] at h
      cases hp : processItems p.items st with
      | error es =>
        rw [hp] at h
        injection h with h2
        rw [h2] at hp
        exact (processItems_len p.items hpi st hcl hcp).2 e s hp
      | ok st1 =>
        rw [hp] at h
        obtain ⟨h1, h2⟩ := (processItems_len p.items hpi st hcl hcp).1 st1 hp
        cases hn : p.next with
        | noNext => rw [hn] at h; cases h
        | nextOk =>
          rw [hn] at h
          exact (ih hrest st1 h1 h2).2 e s h
        | nextErr pe =>
          rw [hn] at h
          cases h
          intro cp hm
          simp at hm
          rcases hm with hm | hm
          · exact h2 cp hm
          · simp [hm, CpIdxLe, save_progress, h1]

/-! ## Claim theorems -/

/-- C1: harvesting a 25-track playlist whose 12th processed track's artist
lookup raises a quota-class error makes get_playlist_tracks write a
checkpoint with current_index 11 over 11 persisted tracks (it is the final
progress-file state) and re-raise, so the caller observes the quota
error. -/
theorem c1_theorem :
    (get_playlist_tracks inpC1).result = .error .quotaExceeded
    ∧ ((get_playlist_tracks inpC1).file.map (fun c => c.current_index)) = some 11
    ∧ ((get_playlist_tracks inpC1).file.map (fun c => c.tracks.length)) = some 11
    ∧ ((get_playlist_tracks inpC1).saves.map
        (fun c => (c.current_index, c.tracks.length))) = [(10, 10), (11, 11), (11, 11)] :=
  ⟨rfl, rfl, rfl, rfl⟩

/-- C2 counterexample: a quota-class rejection on the very first
playlist-listing call is caught by get_playlist_tracks, which returns an
empty list instead of raising, so the caller does not observe
QuotaExceeded. -/
theorem c2_counterexample :
    inpC2.firstCall = .error (.spotifyExc ⟨429, false⟩)
    ∧ classify (.spotifyExc ⟨429, false⟩) = .quotaExceeded
    ∧ (get_playlist_tracks inpC2).result = .ok [] :=
  ⟨rfl, rfl, rfl⟩

/-- C2 amended: in a non-resumed harvest, a quota/connection rejection of
the initial playlist-listing call yields an empty result instead of
raising; with that call succeeding, the harvest raises exactly the first
quota/connection rejection the traversal encounters (artist lookups and
pagination advances), and otherwise returns the ordered sequence of
successfully processed tracks. -/
theorem c2_amended_theorem (inp : HarvestInput)
    (hfresh : (load_progress inp.progress).1.isEmpty = true ∨
      inp.resumeAnswer = false) :
    (∀ pe, inp.firstCall = .error pe → (get_playlist_tracks inp).result = .ok [])
    ∧ (inp.firstCall = .ok () →
        (get_playlist_tracks inp).result =
          (match specPagesFatal inp.pages with
           | some e => .error e
           | none => .ok (specTracks inp.pages))) := by
  have hcond : (!(load_progress inp.progress).1.isEmpty && inp.resumeAnswer) = false := by
    rcases hfresh with h | h <;> simp [h]
  constructor
  · intro pe hpe
    simp [get_playlist_tracks, hcond, hpe, safe_spotify_call]
  · intro hok
    cases hsf : specPagesFatal inp.pages with
    | some e =>
      obtain ⟨s, hs⟩ := runPages_fatal inp.pages e hsf ⟨[], 0, []⟩
      simp [get_playlist_tracks, hcond, hok, safe_spotify_call, hs]
    | none =>
      obtain ⟨c, s, hs⟩ := runPages_ok inp.pages hsf ⟨[], 0, []⟩
      simp [get_playlist_tracks, hcond, hok, safe_spotify_call, hs]

/-- C2 amended, witness: a fresh one-page harvest instantiating the
amended theorem. -/
theorem c2_amended_witness :
    (load_progress inpOnePage.progress).1.isEmpty = true
    ∧ inpOnePage.firstCall = .ok ()
    ∧ (get_playlist_tracks inpOnePage).result =
        (match specPagesFatal inpOnePage.pages with
         | some e => .error e
         | none => .ok (specTracks inpOnePage.pages)) :=
  ⟨rfl, rfl, (c2_amended_theorem inpOnePage (Or.inl rfl)).2 rfl⟩

/-- C3: a track all of whose artist lookups return without a
quota/connection classification is never aborted: it is appended to the
output, its genre set is exactly the union contributed by the well-formed
responses (a swallowed lookup contributes none), and when the first
artist's lookup was swallowed the track's artist_popularity defaults
to 0. -/
theorem c3_theorem (st : LoopSt) (t : TrackObj)
    (hne : t.artists ≠ [])
    (hnf : ∀ a ∈ t.artists, exceptIsOk a.callResult = true) :
    ∃ td s, processTrack st t = .ok ⟨st.tracks ++ [td], st.count + 1, s⟩
      ∧ td.genres = specGenresFrom [] t.artists
      ∧ (∀ a0 rest, t.artists = a0 :: rest → a0.callResult = .ok none →
          td.artist_popularity = 0) := by
  have hfat := specArtistsFatal_none t.artists hnf
  cases hl : artistLoop t.artists 0 [] [] 0 with
  | error e =>
    have hiff := (artistLoop_error_iff t.artists 0 [] [] 0 e).mp hl
    rw [hfat] at hiff
    cases hiff
  | ok v =>
    obtain ⟨arts, gens, apop⟩ := v
    cases arts with
    | nil =>
      have harts := artistLoop_ok_arts t.artists 0 [] [] 0 _ hl
      simp at harts
      exact absurd harts hne
    | cons a0 tl =>
      refine ⟨mkTrackData t (a0 :: tl) gens apop a0,
        (if (st.count + 1) % 10 == 0
         then st.saves ++ [save_progress
           (st.tracks ++ [mkTrackData t (a0 :: tl) gens apop a0]) (st.count + 1)]
         else st.saves), ?_, ?_, ?_⟩
      · simp [processTrack, hl]
      · have hg := artistLoop_ok_gens t.artists 0 [] [] 0 _ hl
        simpa [mkTrackData] using hg
      · intro b0 rest hart hc
        have hpop := artistLoop_ok_pop t.artists _ hl
        simp at hpop
        simp only [mkTrackData]
        rw [hpop, hart]
        simp [specFirstPop, hc]

/-- C3 witness: a track whose only artist lookup is swallowed,
instantiating the theorem from the empty loop state. -/
theorem c3_witness :
    (trackSwallowed.artists ≠ []
      ∧ ∀ a ∈ trackSwallowed.artists, exceptIsOk a.callResult = true)
    ∧ (∃ td s, processTrack ⟨[], 0, []⟩ trackSwallowed =
          .ok ⟨[] ++ [td], 0 + 1, s⟩
        ∧ td.genres = specGenresFrom [] trackSwallowed.artists
        ∧ (∀ a0 rest, trackSwallowed.artists = a0 :: rest →
            a0.callResult = .ok none → td.artist_popularity = 0)) :=
  by
  have h1 : trackSwallowed.artists ≠ [] := by simp [trackSwallowed]
  have h2 : ∀ a ∈ trackSwallowed.artists, exceptIsOk a.callResult = true := by
    intro a ha
    simp [trackSwallowed] at ha
    rw [ha]
    rfl
  exact ⟨⟨h1, h2⟩, c3_theorem ⟨[], 0, []⟩ trackSwallowed h1 h2⟩

/-- C4 counterexample: a harvest whose first track entry is skipped by a
per-track processing error writes its periodic (10-track) checkpoint and
its final checkpoint with cursor 10 over only 9 persisted tracks, so the
claimed invariant fails for checkpoints written after skips. -/
theorem c4_counterexample :
    ((get_playlist_tracks inpC4).saves.map
      (fun cp => (cp.current_index, cp.tracks.length))) = [(10, 9), (10, 9)]
    ∧ ¬ (∀ cp ∈ (get_playlist_tracks inpC4).saves,
          cp.current_index ≤ cp.tracks.length) :=
  ⟨rfl, by decide⟩

/-- C4 amended: every checkpoint written during a harvest in which no
track entry is skipped by a per-track processing error satisfies cursor
index ≤ length of the persisted track sequence; when entries are skipped
the cursor also counts the skipped entries and can exceed that length. -/
theorem c4_amended_theorem (inp : HarvestInput) (hns : NoSkips inp.pages) :
    ∀ cp ∈ (get_playlist_tracks inp).saves,
      cp.current_index ≤ cp.tracks.length := by
  intro cp hcp
  by_cases hc : (!(load_progress inp.progress).1.isEmpty && inp.resumeAnswer) = true
  · simp [get_playlist_tracks, hc] at hcp
  · rw [Bool.not_eq_true] at hc
    cases hf : inp.firstCall with
    | error pe =>
      simp [get_playlist_tracks, hc, hf, safe_spotify_call] at hcp
    | ok u =>
      cases u
      have hinit : (∀ c ∈ ([] : List Checkpoint), CpIdxLe c) := by simp
      cases hr : runPages inp.pages ⟨[], 0, []⟩ with
      | error es =>
        obtain ⟨e, s⟩ := es
        simp [get_playlist_tracks, hc, hf, safe_spotify_call, hr] at hcp
        exact (runPages_len inp.pages hns ⟨[], 0, []⟩ rfl hinit).2 e s hr cp hcp
      | ok st1 =>
        obtain ⟨h1, h2⟩ := (runPages_len inp.pages hns ⟨[], 0, []⟩ rfl hinit).1 st1 hr
        simp [get_playlist_tracks, hc, hf, safe_spotify_call, hr] at hcp
        rcases hcp with hcp | hcp
        · exact h2 cp hcp
        · simp [hcp, save_progress, h1]

/-- C4 amended, witness: a skip-free one-page harvest instantiating the
amended invariant. -/
theorem c4_amended_witness :
    NoSkips inpOnePage.pages
    ∧ ∀ cp ∈ (get_playlist_tracks inpOnePage).saves,
        cp.current_index ≤ cp.tracks.length := by
  have hns : NoSkips inpOnePage.pages := by
    intro p hp it hit t ht
    simp [inpOnePage] at hp
    rw [hp] at hit
    simp at hit
    rw [hit] at ht
    injection ht with h2
    rw [← h2]
    simp [goodTrack]
  exact ⟨hns, c4_amended_theorem inpOnePage hns⟩

/-- C9: within a single run, the cursors of the checkpoints written by
get_playlist_tracks, taken in write order, never decrease. -/
theorem c9_theorem (inp : HarvestInput) :
    List.Pairwise (fun a b => a.current_index ≤ b.current_index)
      (get_playlist_tracks inp).saves := by
  by_cases hc : (!(load_progress inp.progress).1.isEmpty && inp.resumeAnswer) = true
  · simp [get_playlist_tracks, hc]
  · rw [Bool.not_eq_true] at hc
    cases hf : inp.firstCall with
    | error pe =>
      simp [get_playlist_tracks, hc, hf, safe_spotify_call]
    | ok u =>
      cases u
      have hm0 : SavesMono ([] : List Checkpoint) := List.Pairwise.nil
      have hb0 : SavesBound ([] : List Checkpoint) 0 := by
        intro x hx
        simp at hx
      cases hr : runPages inp.pages ⟨[], 0, []⟩ with
      | error es =>
        obtain ⟨e, s⟩ := es
        have := (runPages_mono inp.pages ⟨[], 0, []⟩ hm0 hb0).2 e s hr
        simp [get_playlist_tracks, hc, hf, safe_spotify_call, hr]
        exact this
      | ok st1 =>
        obtain ⟨h1, h2, _⟩ := (runPages_mono inp.pages ⟨[], 0, []⟩ hm0 hb0).1 st1 hr
        have := savesMono_append st1.saves [save_progress st1.tracks st1.count]
          st1.count h1 h2 (by simp [cpLe]) (by simp [save_progress])
        simp [get_playlist_tracks, hc, hf, safe_spotify_call, hr]
        exact this

/-- C10: a non-empty checkpoint the user declines to resume is deleted
before the fresh harvest starts, so the whole run behaves exactly as if no
checkpoint had existed. -/
theorem c10_theorem (inp : HarvestInput) (cp : Checkpoint)
    (hp : inp.progress = some cp) (hne : cp.tracks ≠ [])
    (hd : inp.resumeAnswer = false) :
    get_playlist_tracks inp =
      get_playlist_tracks ⟨none, inp.resumeAnswer, inp.firstCall, inp.pages⟩ := by
  have hE : cp.tracks.isEmpty = false := by
    cases htr : cp.tracks with
    | nil => exact absurd htr hne
    | cons a l => simp
  simp [get_playlist_tracks, hp, hd, load_progress, hE]

/-- C10 witness: a declined stale checkpoint, instantiating the
equivalence with the checkpoint-free run. -/
theorem c10_witness :
    inpDecline.progress = some cpOld ∧ cpOld.tracks ≠ []
    ∧ inpDecline.resumeAnswer = false
    ∧ get_playlist_tracks inpDecline =
        get_playlist_tracks
          ⟨none, inpDecline.resumeAnswer, inpDecline.firstCall, inpDecline.pages⟩ := by
  have hne : cpOld.tracks ≠ [] := by simp [cpOld]
  exact ⟨rfl, hne, rfl, c10_theorem inpDecline cpOld rfl hne rfl⟩

/-- C5: when the catalog_id-named output file already exists,
download_song succeeds with method SKIPPED and performs no validation,
direct-download or search call; and a download phase in which every
track's output exists attempts zero download_song invocations. -/
theorem c5_theorem (t : TrackData) (env : DlEnv)
    (meta : Option (List TrackData)) (confirm : Bool) (denv : Nat → DlEnv)
    (hex : env.outputExists = true)
    (hall : ∀ i, (denv i).outputExists = true) :
    download_song t env = ⟨true, .skipped, []⟩
    ∧ (download_mp3s meta confirm denv).attempts = 0 := by
  constructor
  · simp [download_song, hex]
  · cases meta with
    | none => simp [download_mp3s]
    | some l =>
      by_cases hl : l.isEmpty
      · simp [download_mp3s, hl]
      · have hfil : l.enum.filter (fun p => (denv p.1).outputExists) = l.enum :=
          List.filter_eq_self.mpr (fun p _ => by rw [hall p.1])
        simp [download_mp3s, hl, hfil, List.enum_length]

/-- C5 witness: the one-track download phase with the output already
present. -/
theorem c5_witness :
    dlEnvExists.outputExists = true
    ∧ download_song fooTrack dlEnvExists = ⟨true, .skipped, []⟩
    ∧ (download_mp3s (some [fooTrack]) true (fun _ => dlEnvExists)).attempts = 0 := by
  have h := c5_theorem fooTrack dlEnvExists (some [fooTrack]) true
    (fun _ => dlEnvExists) rfl (fun i => rfl)
  exact ⟨rfl, h.1, h.2⟩

/-- C6: a track with no resolved link whose output is absent skips the
direct path (no validation call), performs exactly one search call with
the query built from the title and the first primary-role artist, and a
successful search yields success with method SEARCH; on the scenario
track the query is the title-space-artist string. -/
theorem c6_theorem (t : TrackData) (env : DlEnv)
    (hex : env.outputExists = false) (hurl : t.youtube_url = none)
    (hs : env.searchOk = true) :
    download_song t env =
      ⟨true, .search, [.searchDownload (build_search_query t)]⟩
    ∧ build_search_query fooTrack = "Foo Bar" := by
  constructor
  · simp [download_song, hex, hurl, searchFallback, hs]
  · rfl

/-- C6 witness: the scenario track with a succeeding search. -/
theorem c6_witness :
    dlEnvSearchOk.outputExists = false ∧ fooTrack.youtube_url = none
    ∧ dlEnvSearchOk.searchOk = true
    ∧ download_song fooTrack dlEnvSearchOk =
        ⟨true, .search, [.searchDownload (build_search_query fooTrack)]⟩
    ∧ build_search_query fooTrack = "Foo Bar" := by
  have h := c6_theorem fooTrack dlEnvSearchOk rfl rfl rfl
  exact ⟨rfl, rfl, rfl, h.1, h.2⟩

/-- C7 counterexample: with the metadata artifact missing at
download-phase start the orchestrator reports zero tracks and attempts no
download, but the process exits 0 rather than non-zero (main only prints
a warning when the download phase fails). -/
theorem c7_counterexample :
    envC7.metadataAtDownload = none
    ∧ (mainRun envC7).downloadPhase = some ⟨false, 0, 0⟩
    ∧ ¬ ((mainRun envC7).exitCode ≠ 0) :=
  ⟨rfl, rfl, fun h => h rfl⟩

/-- C7 amended: if the metadata artifact is missing when the download
phase starts, the orchestrator reports zero tracks, attempts no download
action, and the process exits with code 0. -/
theorem c7_amended_theorem (env : MainEnv)
    (hreq : env.requirementsOk = true)
    (hfetch : (fetch_spotify_metadata env.fetch).ok = true)
    (hmeta : env.metadataAtDownload = none) :
    mainRun env = ⟨0, some ⟨false, 0, 0⟩⟩ := by
  simp [mainRun, hreq, hfetch, hmeta, download_mp3s]

/-- C7 amended, witness: the concrete missing-artifact environment. -/
theorem c7_amended_witness :
    envC7.requirementsOk = true
    ∧ (fetch_spotify_metadata envC7.fetch).ok = true
    ∧ envC7.metadataAtDownload = none
    ∧ mainRun envC7 = ⟨0, some ⟨false, 0, 0⟩⟩ :=
  ⟨rfl, rfl, rfl, c7_amended_theorem envC7 rfl rfl rfl⟩

/-- C8 counterexample: a malformed playlist URL does fail with
InvalidInput, but the connection test — a network call — has already been
made before the URL check, so the failure is not before any network
call. -/
theorem c8_counterexample :
    (fetch_spotify_metadata fetchC8).reason = some .invalidInput
    ∧ (fetch_spotify_metadata fetchC8).callsBeforeUrlCheck = [.connTest]
    ∧ ¬ ((fetch_spotify_metadata fetchC8).callsBeforeUrlCheck = []) :=
  ⟨rfl, rfl, by decide⟩

/-- C8 amended: for every malformed playlist URL (with the connection
test succeeding), the run fails with InvalidInput before the harvest is
reached — hence before any catalog network call — but after the single
connection-test network call. -/
theorem c8_amended_theorem (env : FetchEnv) (line : String)
    (hconn : env.connOk = true) (hline : env.fileLine = some line)
    (hbad : strStartsWith (pyStrip line) playlistUrlStart = false) :
    fetch_spotify_metadata env =
      ⟨false, some .invalidInput, [], [.connTest], false⟩ := by
  simp [fetch_spotify_metadata, hconn, hline, hbad]

/-- C8 amended, witness: the concrete malformed-URL environment. -/
theorem c8_amended_witness :
    fetchC8.connOk = true
    ∧ fetchC8.fileLine = some ("https://example.com/nope")
    ∧ strStartsWith (pyStrip ("https://example.com/nope")) playlistUrlStart = false
    ∧ fetch_spotify_metadata fetchC8 =
        ⟨false, some .invalidInput, [], [.connTest], false⟩ :=
  ⟨rfl, rfl, by decide,
   c8_amended_theorem fetchC8 ("https://example.com/nope") rfl rfl (by decide)⟩
